import Mathlib

/-
Verification development for the OpenStack management client
(`wrapanapi/systems/openstack.py`).

The relevant routines are embedded shallowly:
* backend interactions (listing pages, floating-IP scans, state reads, ...)
  are supplied by explicit environments of call-indexed oracle functions,
  one counter per kind of backend call, threaded through the code;
* the Python loops become fuel-indexed structural recursions;
* exceptions become `Except` results.
-/

namespace Openstack

/-- States of the instance state machine (`VmState` values used by the module). -/
inductive VmState where
  | running
  | stopped
  | suspended
  | paused
deriving DecidableEq

/- ------------------------------------------------------------------ -/
/- `OpenstackSystem._generic_paginator` (openstack.py lines 688-718).  -/
/- ------------------------------------------------------------------ -/

namespace Paginator

/-- Result of one backend listing call: a page of items, or the "bad request"
condition signalling an invalid marker (`os_exceptions.BadRequest`). -/
inductive PageResult (α : Type) where
  | ok (items : List α)
  | badRequest
deriving DecidableEq

/-- The inner `for i in range(min(10, len(lists)))` rollback loop of
`_generic_paginator`: try the marker of the items at offsets `-(i+1)` from the
end of `lists` in turn; a successful call returns the page together with the
advanced call counter, exhausting the index list is the `for`-`else` branch
(the unrecoverable-listing error).  `f` is the listing callable, indexed by a
call counter so that the concurrently-mutated backend can answer differently
on every call. -/
def tryMarkers (f : Nat → Option Nat → PageResult α) (getId : α → Nat)
    (lists : List α) : Nat → List Nat → Except Unit (List α × Nat)
  | _, [] => Except.error ()
  | t, i :: rest =>
    match lists[lists.length - 1 - i]? with
    | none => Except.error ()
    | some item =>
      match f t (some (getId item)) with
      | PageResult.ok items => Except.ok (items, t + 1)
      | PageResult.badRequest => tryMarkers f getId lists (t + 1) rest

/-- Outcome of `_generic_paginator`: the accumulated collection, the
"Could not get list, maybe mass deletion after 10 marker tries" exception,
an uncaught `BadRequest` of the initial markerless call, or exhaustion of the
loop fuel (the Python loop is unbounded; fuel is a modelling artifact). -/
inductive PagResult (α : Type) where
  | done (items : List α)
  | unrecoverable
  | uncaught
  | outOfFuel
deriving DecidableEq

/-- The `while True` loop of `_generic_paginator`: an empty accumulator issues
the markerless call, otherwise the rollback loop supplies the next page; an
empty page breaks out of the loop, a non-empty one is appended. -/
def paginatorAux (f : Nat → Option Nat → PageResult α) (getId : α → Nat) :
    Nat → Nat → List α → PagResult α
  | 0, _, _ => PagResult.outOfFuel
  | fuel + 1, t, lists =>
    if lists.isEmpty then
      match f t none with
      | PageResult.badRequest => PagResult.uncaught
      | PageResult.ok tempList =>
        if tempList.isEmpty then PagResult.done lists
        else paginatorAux f getId fuel (t + 1) (lists ++ tempList)
    else
      match tryMarkers f getId lists t (List.range (min 10 lists.length)) with
      | Except.error _ => PagResult.unrecoverable
      | Except.ok (tempList, t2) =>
        if tempList.isEmpty then PagResult.done lists
        else paginatorAux f getId fuel t2 (lists ++ tempList)

/-- `OpenstackSystem._generic_paginator(f)`. -/
def generic_paginator (f : Nat → Option Nat → PageResult α) (getId : α → Nat)
    (fuel : Nat) : PagResult α :=
  paginatorAux f getId fuel 0 []

/-- A concurrently-mutated backend collection: a fixed master ordering of item
ids, a time-indexed liveness predicate (items get deleted as time advances),
and a page size. -/
structure Backend where
  master : List Nat
  alive : Nat → Nat → Bool
  ps : Nat

/-- The items strictly after `m` in the master ordering. -/
def itemsAfter (master : List Nat) (m : Nat) : List Nat :=
  master.drop (master.indexOf m + 1)

/-- The honest paginated listing API over a `Backend`: without a marker it
returns the first page of currently-live items; with a marker it returns the
page of live items after the marker, or the "bad request" condition when the
marker's item no longer exists. -/
def livePage (B : Backend) (t : Nat) : Option Nat → PageResult Nat
  | none => PageResult.ok ((B.master.filter (fun x => B.alive t x)).take B.ps)
  | some m =>
    if B.alive t m then
      PageResult.ok (((itemsAfter B.master m).filter (fun x => B.alive t x)).take B.ps)
    else PageResult.badRequest

/-- Deletions are permanent: an item alive at a later time was alive earlier. -/
def Mono (B : Backend) : Prop :=
  ∀ t x, B.alive (t + 1) x = true → B.alive t x = true

/-- Loop invariant of the paginator run against an honest backend: every
accumulated id belongs to the master ordering, the accumulated ids are in
strictly increasing master order (hence duplicate-free), and every id still
alive that has not yet been accumulated lies strictly after everything
accumulated. -/
def Inv (B : Backend) (t : Nat) (L : List Nat) : Prop :=
  (∀ y ∈ L, y ∈ B.master) ∧
  L.Pairwise (fun a b => B.master.indexOf a < B.master.indexOf b) ∧
  (∀ x ∈ B.master, B.alive t x = true → x ∉ L →
    ∀ y ∈ L, B.master.indexOf y < B.master.indexOf x)

/-- A listing function whose first (markerless) call yields eleven items and
which afterwards rejects every marker except the very first accumulated item's:
all ten markers in the backward window fail although the eleventh position back
would have succeeded. -/
def windowList : Nat → Option Nat → PageResult Nat :=
  fun _ om =>
    match om with
    | none => PageResult.ok [0, 1, 2, 3, 4, 5, 6, 7, 8, 9, 10]
    | some m => if m = 0 then PageResult.ok [] else PageResult.badRequest

/-- A small concrete backend used to instantiate the paginator theorem. -/
def sampleBackend : Backend :=
  { master := [0, 1, 2], alive := fun _ _ => true, ps := 5 }

end Paginator

/- ------------------------------------------------------------------ -/
/- `OpenstackInstance.assign_floating_ip` and `OpenstackSystem.free_fips`
   (openstack.py lines 171-229 and 943-945).                           -/
/- ------------------------------------------------------------------ -/

namespace FipAlloc

/-- A floating-IP object as the allocator sees it: its address value. -/
structure FIP where
  ip : Nat
deriving DecidableEq

/-- The sort key of `free_fips`: ascending address value. -/
def fipLe (a b : FIP) : Prop := a.ip ≤ b.ip

instance : DecidableRel fipLe := fun a b => Nat.decLe a.ip b.ip

instance : IsTotal FIP fipLe := ⟨fun a b => Nat.le_total a.ip b.ip⟩

instance : IsTrans FIP fipLe := ⟨fun _ _ _ h h2 => Nat.le_trans h h2⟩

/-- Environment of `assign_floating_ip`: the instance's observed floating IP
per `self.ip` read, the raw backend `floating_ips.findall(fixed_ip=None,
pool=pool)` result per scan, and the `floating_ips.create(pool)` outcome per
create call (`Except.error ()` is the `ClientException`/`OverLimit` case). -/
structure AsgEnv where
  obsIp : Nat → Option Nat
  findallFree : Nat → List FIP
  createFip : Nat → Except Unit FIP

/-- `OpenstackSystem.free_fips(pool)`: the free floating IPs sorted ascending
by address. -/
def free_fips (env : AsgEnv) (s : Nat) : List FIP :=
  List.insertionSort fipLe (env.findallFree s)

/-- Errors of `assign_floating_ip`: pool exhaustion (`NoMoreFloatingIPs`), the
final `assert` failing (`AssertionError`), the Python `UnboundLocalError` that
occurs when the `while` loop exits before its first iteration, and fuel
exhaustion (modelling artifact for the unbounded `while`). -/
inductive AsgErr where
  | noMoreFips
  | assertFailed
  | unboundLocal
  | outOfFuel
deriving DecidableEq

/-- One acquisition round of the `while self.ip is None` loop body, up to and
including the choice of the address to attach: scan the free pool (scan
counter `s`); with more than one free address reuse the first (eldest);
otherwise create one (create counter `c`), falling back on a re-scan when
creation fails, and raising `NoMoreFloatingIPs` when the re-scan is empty.
Returns the chosen FIP with the advanced counters. -/
def acquireRound (env : AsgEnv) (s c : Nat) : Except Unit (FIP × Nat × Nat) :=
  match free_fips env s with
  | f0 :: _ :: _ => Except.ok (f0, s + 1, c)
  | _ =>
    match env.createFip c with
    | Except.ok ip => Except.ok (ip, s + 1, c + 1)
    | Except.error _ =>
      match free_fips env (s + 1) with
      | ip :: _ => Except.ok (ip, s + 2, c + 1)
      | [] => Except.error ()

/-- The `while self.ip is None` loop: each iteration re-reads `self.ip`
(observation counter `o`), runs an acquisition round, attaches the chosen
address (its effect is only visible through later observations) and sleeps the
safety timer.  On loop exit the `assert self.ip == ip.ip` re-reads the address
once more and compares it against the last attached FIP.  Returns the returned
address together with the final observation counter. -/
def asgLoop (env : AsgEnv) :
    Nat → Nat → Nat → Nat → Option FIP → Except AsgErr (Option Nat × Nat)
  | 0, _, _, _, _ => Except.error AsgErr.outOfFuel
  | fuel + 1, o, s, c, attached =>
    match env.obsIp o with
    | some _ =>
      match attached with
      | none => Except.error AsgErr.unboundLocal
      | some ip =>
        if env.obsIp (o + 1) = some ip.ip then Except.ok (some ip.ip, o + 2)
        else Except.error AsgErr.assertFailed
    | none =>
      match acquireRound env s c with
      | Except.error _ => Except.error AsgErr.noMoreFips
      | Except.ok (ip, s2, c2) => asgLoop env fuel (o + 1) s2 c2 (some ip)

/-- `OpenstackInstance.assign_floating_ip(pool)`: the initial
`if self.ip is not None: return self.ip` early exit (which re-reads the
address for the return value), then the acquisition loop. -/
def assign_floating_ip (env : AsgEnv) (fuel : Nat) :
    Except AsgErr (Option Nat × Nat) :=
  match env.obsIp 0 with
  | some _ => Except.ok (env.obsIp 1, 2)
  | none => asgLoop env fuel 1 0 0 none

/-- Concrete allocator environment: no address for two observations, then the
attached address `7` is observed; the pool holds two free addresses `9`, `7`. -/
def asgEnvW : AsgEnv :=
  { obsIp := fun k => if k ≤ 1 then none else some 7
  , findallFree := fun _ => [⟨9⟩, ⟨7⟩]
  , createFip := fun _ => Except.error () }

/-- Concrete allocator environment whose assert-time observation (`4`)
differs from every attachable address. -/
def asgEnvBad : AsgEnv :=
  { obsIp := fun k => if k = 5 then some 3 else some 4
  , findallFree := fun _ => []
  , createFip := fun _ => Except.error () }

/-- Concrete allocator environment: the first free-scan is empty, creation
fails with the allocation-limit error, and the fallback re-scan finds one
free address `4`. -/
def asgEnvOver : AsgEnv :=
  { obsIp := fun _ => none
  , findallFree := fun s => if s = 0 then [] else [⟨4⟩]
  , createFip := fun _ => Except.error () }

/-- Concrete allocator environment with an exhausted pool: every scan is empty
and creation always fails. -/
def asgEnvEmpty : AsgEnv :=
  { obsIp := fun _ => none
  , findallFree := fun _ => []
  , createFip := fun _ => Except.error () }

end FipAlloc

/- ------------------------------------------------------------------ -/
/- `OpenstackInstance.start` (openstack.py lines 270-283).             -/
/- ------------------------------------------------------------------ -/

namespace StartSM

/-- Backend power commands `start` may issue. -/
inductive Cmd where
  | startCmd
  | resume
  | unpause
deriving DecidableEq

/-- Environment of `start`: the instance state returned by the `k`-th
state read (each `is_running`/`is_suspended`/`is_paused` check refreshes). -/
structure StartEnv where
  obs : Nat → VmState

/-- Result of `start`: normal return, or the bounded wait timing out. -/
inductive StartRes where
  | ok
  | timedOut
deriving DecidableEq

/-- `wait_for(self.is_running)`, modelled from the spec as bounded polling of
the running check starting at observation index `k` (the `is_running` check of
the external base class re-reads the state each poll); returns the index of
the first observation that is RUNNING. -/
def waitForRunning (env : StartEnv) : Nat → Nat → Option Nat
  | _, 0 => none
  | k, fuel + 1 =>
    if env.obs k = VmState.running then some k
    else waitForRunning env (k + 1) fuel

/-- `OpenstackInstance.start()`: observation 0 is the `is_running` idempotency
check, observation 1 the `is_suspended` check, observation 2 the `is_paused`
check (only reached when not suspended); the issued command is recorded and
the wait polls the subsequent observations. -/
def start (env : StartEnv) (fuel : Nat) : StartRes × List Cmd :=
  if env.obs 0 = VmState.running then (StartRes.ok, [])
  else if env.obs 1 = VmState.suspended then
    match waitForRunning env 2 fuel with
    | some _ => (StartRes.ok, [Cmd.resume])
    | none => (StartRes.timedOut, [Cmd.resume])
  else if env.obs 2 = VmState.paused then
    match waitForRunning env 3 fuel with
    | some _ => (StartRes.ok, [Cmd.unpause])
    | none => (StartRes.timedOut, [Cmd.unpause])
  else
    match waitForRunning env 3 fuel with
    | some _ => (StartRes.ok, [Cmd.startCmd])
    | none => (StartRes.timedOut, [Cmd.startCmd])

/-- Concrete environment: the instance is already running. -/
def envRunning : StartEnv := ⟨fun _ => VmState.running⟩

/-- Concrete environment: the first check sees a suspended instance (so the
idempotency check fails), the suspended check confirms it, and the instance is
running from the third observation on. -/
def envSusp : StartEnv :=
  ⟨fun k => if k ≤ 1 then VmState.suspended else VmState.running⟩

/-- Concrete environment: paused instance, running from observation 3 on. -/
def envPaused : StartEnv :=
  ⟨fun k => if k ≤ 2 then VmState.paused else VmState.running⟩

/-- Concrete environment: stopped instance, running from observation 3 on. -/
def envStopped : StartEnv :=
  ⟨fun k => if k ≤ 2 then VmState.stopped else VmState.running⟩

end StartSM

/- ------------------------------------------------------------------ -/
/- `OpenstackInstance.mark_as_template` (openstack.py lines 312-338).  -/
/- ------------------------------------------------------------------ -/

namespace MarkTpl

/-- The step of `mark_as_template` whose failure is re-raised. -/
inductive MtErr where
  | steadyFail
  | stopFail
  | snapshotFail
  | imageWaitFail
  | deleteFail
deriving DecidableEq

/-- Environment of `mark_as_template`: outcomes of the steps inside the `try`
block (`wait_for_steady_state`, the `is_stopped` check and `stop`,
`create_image`, the wait for the image to become ACTIVE, and `delete` together
with its non-existence wait), plus whether the rollback `rename` back to the
original name succeeds. -/
structure MtEnv where
  steady : Except Unit Unit
  isStopped : Bool
  stopRes : Except Unit Unit
  createImage : Except Unit Nat
  imageActive : Except Unit Unit
  deleteRes : Except Unit Unit
  renameBackOk : Bool

/-- The `try` block of `mark_as_template`: steady-state wait, stop when not
stopped, snapshot creation, image-ACTIVE wait, instance deletion.  The first
failing step determines the raised error. -/
def mtBody (env : MtEnv) : Except MtErr Nat :=
  match env.steady with
  | Except.error _ => Except.error MtErr.steadyFail
  | Except.ok _ =>
    match (if env.isStopped then Except.ok () else env.stopRes) with
    | Except.error _ => Except.error MtErr.stopFail
    | Except.ok _ =>
      match env.createImage with
      | Except.error _ => Except.error MtErr.snapshotFail
      | Except.ok uuid =>
        match env.imageActive with
        | Except.error _ => Except.error MtErr.imageWaitFail
        | Except.ok _ =>
          match env.deleteRes with
          | Except.error _ => Except.error MtErr.deleteFail
          | Except.ok _ => Except.ok uuid

/-- `OpenstackInstance.mark_as_template()`: rename the instance to
`<name>_copytemplate`, run the body; on failure attempt to rename back (a
rename-back failure is swallowed, leaving the copy name in place) and re-raise
the body's error.  Returns the result together with the instance's final
name. -/
def mark_as_template (name0 : String) (env : MtEnv) : Except MtErr Nat × String :=
  let copyName := name0 ++ "_copytemplate"
  match mtBody env with
  | Except.ok uuid => (Except.ok uuid, copyName)
  | Except.error e => (Except.error e, if env.renameBackOk then name0 else copyName)

/-- Concrete environment: snapshot creation fails, everything before it
succeeds, and the rollback rename succeeds. -/
def envSnapFail : MtEnv :=
  { steady := Except.ok ()
  , isStopped := true
  , stopRes := Except.ok ()
  , createImage := Except.error ()
  , imageActive := Except.ok ()
  , deleteRes := Except.ok ()
  , renameBackOk := true }

/-- Concrete environment: snapshot creation fails and the rollback rename
fails as well. -/
def envSnapFailNoRB : MtEnv :=
  { steady := Except.ok ()
  , isStopped := true
  , stopRes := Except.ok ()
  , createImage := Except.error ()
  , imageActive := Except.ok ()
  , deleteRes := Except.ok ()
  , renameBackOk := false }

end MarkTpl

/- ------------------------------------------------------------------ -/
/- `OpenstackSystem.find_vms` / `get_vm` (openstack.py lines 731-790). -/
/- ------------------------------------------------------------------ -/

namespace Lookup

/-- An instance as `find_vms` inspects it: name, id, and floating IP. -/
structure Inst where
  name : String
  id : String
  ip : Option String
deriving DecidableEq

/-- Python truthiness of an optional string argument (`None` and the empty
string are falsy). -/
def truthy : Option String → Bool
  | none => false
  | some s => !s.isEmpty

/-- The `if`/`elif`/`elif` match of the `find_vms` loop body: an instance
matches when the (truthy) name equals its name, or the (truthy) ip equals its
ip, or the (truthy) id equals its id. -/
def matchesCriteria (name ip idArg : Option String) (i : Inst) : Bool :=
  (truthy name && (some i.name == name)) ||
  (truthy ip && (i.ip == ip)) ||
  (truthy idArg && (some i.id == idArg))

/-- Errors of `find_vms`/`get_vm`: the `ValueError` guard, and the not-found /
ambiguous-lookup errors of `get_vm`. -/
inductive LookupErr where
  | valueError
  | notFound
  | multipleInstances
deriving DecidableEq

/-- `OpenstackSystem.find_vms(name, id, ip)`: raises `ValueError` when both
`name` and `ip` are falsy (the `id` argument does not rescue the guard),
otherwise filters the listed instances by the match criteria. -/
def find_vms (instances : List Inst) (name idArg ip : Option String) :
    Except LookupErr (List Inst) :=
  if !truthy name && !truthy ip then Except.error LookupErr.valueError
  else Except.ok (instances.filter (matchesCriteria name ip idArg))

/-- `OpenstackSystem.get_vm(name, id, ip)`: no match raises
`VMInstanceNotFound`, several matches raise `MultipleInstancesError`, and the
single-match path falls off the end of the Python function, returning `None`
(modelled as `Except.ok none`). -/
def get_vm (instances : List Inst) (name idArg ip : Option String) :
    Except LookupErr (Option Inst) :=
  match find_vms instances name idArg ip with
  | Except.error e => Except.error e
  | Except.ok found =>
    if found.isEmpty then Except.error LookupErr.notFound
    else if found.length > 1 then Except.error LookupErr.multipleInstances
    else Except.ok none

/-- A concrete instance named vm1. -/
def vmOne : Inst := { name := ("vm1"), id := ("id1"), ip := none }

/-- A second concrete instance also named vm1. -/
def vmOneB : Inst := { name := ("vm1"), id := ("id2"), ip := none }

end Lookup

/- ------------------------------------------------------------------ -/
/- `OpenstackSystem.delete_floating_ip` and
   `OpenstackInstance.unassign_floating_ip`
   (openstack.py lines 947-970 and 231-250).                           -/
/- ------------------------------------------------------------------ -/

namespace FipRelease

/-- A floating-IP record as the backend lists it: address value and the
attachment marker (`fixed_ip`; `none` means free). -/
structure Fip8 where
  ip : Nat
  fixed_ip : Option String
deriving DecidableEq

/-- Backend commands the release code can issue: deleting a floating IP and
detaching one from an instance (`remove_floating_ip`). -/
inductive FipCmd where
  | deleteFip (ip : Nat)
  | removeFloatingIp (ip : Nat)
deriving DecidableEq

/-- Environment of `delete_floating_ip`: the result of the `k`-th
`floating_ips.findall(ip=addr)` backend scan. -/
structure DelEnv where
  findall : Nat → Nat → List Fip8

/-- The `wait_for` poll of `delete_floating_ip`: poll `findall(ip=addr)` from
scan index `k` until it is empty; returns the successful scan index. -/
def delWait (env : DelEnv) (addr : Nat) : Nat → Nat → Option Nat
  | _, 0 => none
  | k, fuel + 1 =>
    if env.findall k addr = [] then some k else delWait env addr (k + 1) fuel

/-- `OpenstackSystem.delete_floating_ip(floating_ip)` for a raw address (or
`None`) argument: `None` returns `False`; a raw address is looked up via
`findall(ip=addr)`, an empty lookup returns `False` without raising; otherwise
the found object is deleted and the backend polled until no record with that
address remains (a timeout raises).  The issued backend commands are
returned alongside the result. -/
def delete_floating_ip (env : DelEnv) (floatingIp : Option Nat) (fuel : Nat) :
    Except Unit Bool × List FipCmd :=
  match floatingIp with
  | none => (Except.ok false, [])
  | some addr =>
    match env.findall 0 addr with
    | [] => (Except.ok false, [])
    | fip :: _ =>
      match delWait env fip.ip 1 fuel with
      | some _ => (Except.ok true, [FipCmd.deleteFip fip.ip])
      | none => (Except.error (), [FipCmd.deleteFip fip.ip])

/-- Environment of `unassign_floating_ip`: the instance's observed floating IP
per read, and the `findall(ip=addr)` lookup. -/
structure UnEnv where
  obsIp : Nat → Option Nat
  findallByIp : Nat → List Fip8

/-- The `wait_for(lambda: self.ip is None)` poll of `unassign_floating_ip`. -/
def unWait (env : UnEnv) : Nat → Nat → Bool
  | _, 0 => false
  | k, fuel + 1 =>
    if env.obsIp k = none then true else unWait env (k + 1) fuel

/-- `OpenstackInstance.unassign_floating_ip()`: no current address or no
matching floating-IP object returns `None`; otherwise the IP is detached from
the instance (`remove_floating_ip`) and the instance polled until it reports
no address. -/
def unassign_floating_ip (env : UnEnv) (fuel : Nat) :
    Except Unit (Option Fip8) × List FipCmd :=
  match env.obsIp 0 with
  | none => (Except.ok none, [])
  | some addr =>
    match env.findallByIp addr with
    | [] => (Except.ok none, [])
    | fip :: _ =>
      if unWait env 1 fuel then
        (Except.ok (some fip), [FipCmd.removeFloatingIp fip.ip])
      else (Except.error (), [FipCmd.removeFloatingIp fip.ip])

/-- Concrete release environment: address 5 exists and is attached to an
instance at lookup time, and is gone from the first poll on. -/
def delEnvAttached : DelEnv :=
  ⟨fun k a => if k = 0 ∧ a = 5 then [{ ip := 5, fixed_ip := some ("vm1") }] else []⟩

/-- Concrete release environment: no floating IP matches any address. -/
def delEnvNone : DelEnv := ⟨fun _ _ => []⟩

end FipRelease

/- ------------------------------------------------------------------ -/
/- `OpenstackInstance.state` (openstack.py lines 124-135).             -/
/- ------------------------------------------------------------------ -/

namespace StateProp

/-- The fault details a backend instance record may carry. -/
structure Fault where
  code : Nat
  message : String
  created : String
deriving DecidableEq

/-- The `VMError` raised by the `state` property: either the generic
instance-in-error-state error, or the descriptive one carrying the fault
code, message and timestamp. -/
inductive VMErr where
  | generic (name : String)
  | descriptive (name : String) (code : Nat) (message : String) (created : String)
deriving DecidableEq

/-- `OpenstackInstance.state_map`. -/
def state_map : List (String × VmState) :=
  [("PAUSED", VmState.paused), ("ACTIVE", VmState.running),
   ("SHUTOFF", VmState.stopped), ("SUSPENDED", VmState.suspended)]

/-- Modelled from the spec: `_api_state_to_vmstate` lives in the
`wrapanapi.entities` base classes, which are not among the sources; per the
spec, backend statuses are mapped onto the live states through the state map,
and an unmapped status raises the generic instance-in-error-state error. -/
def api_state_to_vmstate (name status : String) : Except VMErr VmState :=
  match state_map.lookup status with
  | some s => Except.ok s
  | none => Except.error (VMErr.generic name)

/-- `OpenstackInstance.state`: a status other than ERROR goes through the
state mapping; the ERROR status raises the generic error when the record
carries no fault details and the descriptive error (fault code, message,
timestamp) when it does. -/
def state (name status : String) (fault : Option Fault) : Except VMErr VmState :=
  if status ≠ ("ERROR") then api_state_to_vmstate name status
  else
    match fault with
    | none => Except.error (VMErr.generic name)
    | some f => Except.error (VMErr.descriptive name f.code f.message f.created)

/-- A status string is unmapped when it has no entry in the state map. -/
def Unmapped (status : String) : Prop := state_map.lookup status = none

end StateProp

/- Helper lemmas for the paginator (C1). -/

/-- A duplicate-free list is strictly increasing in its own index order. -/
theorem pag_master_pairwise (M : List Nat) (hN : M.Nodup) :
    M.Pairwise (fun a b => M.indexOf a < M.indexOf b) := by
  rw [List.pairwise_iff_getElem]
  intro i j hi hj hij
  rw [List.indexOf_getElem hN i hi, List.indexOf_getElem hN j hj]
  exact hij

/-- Membership in the suffix after `m`, characterised by index order. -/
theorem pag_mem_itemsAfter (M : List Nat) (hN : M.Nodup) (m x : Nat) :
    x ∈ Paginator.itemsAfter M m ↔ x ∈ M ∧ M.indexOf m < M.indexOf x := by
  unfold Paginator.itemsAfter
  constructor
  · intro hx
    rcases List.mem_iff_getElem.mp hx with ⟨j, hj, hget⟩
    have hj2 : M.indexOf m + 1 + j < M.length := by
      have hj3 := hj
      rw [List.length_drop] at hj3
      omega
    rw [List.getElem_drop] at hget
    constructor
    · rw [← hget]
      exact List.getElem_mem _
    · rw [← hget, List.indexOf_getElem hN (M.indexOf m + 1 + j) hj2]
      omega
  · rintro ⟨hxM, hlt⟩
    have hxlen : M.indexOf x < M.length := List.indexOf_lt_length.mpr hxM
    refine List.mem_iff_getElem.mpr ⟨M.indexOf x - (M.indexOf m + 1), ?_, ?_⟩
    · rw [List.length_drop]
      omega
    · rw [List.getElem_drop]
      have he : M.indexOf m + 1 + (M.indexOf x - (M.indexOf m + 1)) = M.indexOf x := by
        omega
      simp only [he]
      exact List.getElem_indexOf hxlen

/-- Permanent deletion: alive at a later time implies alive at earlier times. -/
theorem pag_alive_le (B : Paginator.Backend) (hm : Paginator.Mono B) :
    ∀ s t x, s ≤ t → B.alive t x = true → B.alive s x = true := by
  intro s t x hst
  induction hst with
  | refl => exact fun h => h
  | step _ ih => exact fun h => ih (hm _ _ h)

/-- Shape of an honest page served for an accepted marker. -/
theorem pag_livePage_some_ok (B : Paginator.Backend) (t m : Nat) (P : List Nat)
    (h : Paginator.livePage B t (some m) = Paginator.PageResult.ok P) :
    B.alive t m = true ∧
    P = ((Paginator.itemsAfter B.master m).filter (fun x => B.alive t x)).take B.ps := by
  rcases hb : B.alive t m with _ | _
  · simp [Paginator.livePage, hb] at h
  · simp only [Paginator.livePage, hb, if_pos] at h
    exact ⟨rfl, ((Paginator.PageResult.ok.inj h).symm : P = _)⟩

/-- A rejected marker's item is dead at the time of the call. -/
theorem pag_livePage_some_bad (B : Paginator.Backend) (t m : Nat)
    (h : Paginator.livePage B t (some m) = Paginator.PageResult.badRequest) :
    B.alive t m = false := by
  rcases hb : B.alive t m with _ | _
  · rfl
  · simp [Paginator.livePage, hb] at h

/-- Specification of a successful rollback: some index in the tried list
succeeded, every earlier index was tried at successive call times and
rejected, and the returned call counter advanced past all tries. -/
theorem pag_tryMarkers_ok (f : Nat → Option Nat → Paginator.PageResult Nat)
    (L : List Nat) :
    ∀ is t P t2,
      Paginator.tryMarkers f (fun x => x) L t is = Except.ok (P, t2) →
      ∃ k, ∃ hk : k < is.length,
        (∀ k2, (hk2 : k2 < is.length) → k2 < k →
          ∃ item, L[L.length - 1 - is[k2]]? = some item ∧
            f (t + k2) (some item) = Paginator.PageResult.badRequest) ∧
        (∃ item, L[L.length - 1 - is[k]]? = some item ∧
          f (t + k) (some item) = Paginator.PageResult.ok P) ∧
        t2 = t + k + 1 := by
  intro is
  induction is with
  | nil => intro t P t2 h; simp [Paginator.tryMarkers] at h
  | cons i rest ih =>
    intro t P t2 h
    simp only [Paginator.tryMarkers] at h
    split at h
    · exact absurd h (by simp)
    · rename_i item hitem
      split at h
      · rename_i items hf
        have hinj := Except.ok.inj h
        have hP : items = P := congrArg Prod.fst hinj
        have ht2 : t2 = t + 1 := (congrArg Prod.snd hinj).symm
        refine ⟨0, by simp, ?_, ?_, ?_⟩
        · intro k2 hk2 hk0; omega
        · exact ⟨item, by simpa using hitem, by rw [hP] at hf; simpa using hf⟩
        · simpa using ht2
      · rename_i hf
        rcases ih (t + 1) P t2 h with ⟨k, hk, hfails, hsucc, ht2⟩
        refine ⟨k + 1, by simpa using Nat.succ_lt_succ hk, ?_, ?_, ?_⟩
        · intro k2 hk2 hklt
          rcases k2 with _ | k2a
          · exact ⟨item, by simpa using hitem, by simpa using hf⟩
          · have hk2r : k2a < rest.length := by
              simp only [List.length_cons] at hk2
              omega
            rcases hfails k2a hk2r (by omega) with ⟨item2, hi2, hf2⟩
            refine ⟨item2, by simpa using hi2, ?_⟩
            have he : t + 1 + k2a = t + (k2a + 1) := by omega
            rw [← he]
            exact hf2
        · rcases hsucc with ⟨item2, hi2, hf2⟩
          refine ⟨item2, by simpa using hi2, ?_⟩
          have he : t + 1 + k = t + (k + 1) := by omega
          rw [← he]
          exact hf2
        · omega

/-- The invariant holds after the first (markerless) honest page. -/
theorem pag_inv_first (B : Paginator.Backend) (hN : B.master.Nodup)
    (hmono : Paginator.Mono B) (t : Nat) :
    Paginator.Inv B (t + 1)
      ((B.master.filter (fun x => B.alive t x)).take B.ps) := by
  have hFsub : List.Sublist (B.master.filter (fun x => B.alive t x)) B.master :=
    List.filter_sublist _
  have hPsub : List.Sublist ((B.master.filter (fun x => B.alive t x)).take B.ps)
      B.master :=
    (List.take_sublist _ _).trans hFsub
  refine ⟨?_, ?_, ?_⟩
  · intro y hy
    exact hPsub.subset hy
  · exact List.Pairwise.sublist hPsub (pag_master_pairwise B.master hN)
  · intro x hxM hxAlive hxNot y hy
    have hx2 : B.alive t x = true := hmono t x hxAlive
    have hxF : x ∈ B.master.filter (fun x => B.alive t x) :=
      List.mem_filter.mpr ⟨hxM, hx2⟩
    have hxTD : x ∈ (B.master.filter (fun x => B.alive t x)).take B.ps ++
        (B.master.filter (fun x => B.alive t x)).drop B.ps := by
      rw [List.take_append_drop]
      exact hxF
    have hxD : x ∈ (B.master.filter (fun x => B.alive t x)).drop B.ps := by
      rcases List.mem_append.mp hxTD with h2 | h2
      · exact absurd h2 hxNot
      · exact h2
    have hFpw : ((B.master.filter (fun x => B.alive t x)).take B.ps ++
        (B.master.filter (fun x => B.alive t x)).drop B.ps).Pairwise
        (fun a b => B.master.indexOf a < B.master.indexOf b) := by
      rw [List.take_append_drop]
      exact List.Pairwise.sublist hFsub (pag_master_pairwise B.master hN)
    exact (List.pairwise_append.mp hFpw).2.2 y hy x hxD

/-- Extending the invariant by an honest page fetched at time `t2 ≥ t` whose
marker `m` is an accumulated item still alive at `t2` while every accumulated
item after it (in master order) is dead at `t2`. -/
theorem pag_inv_extend (B : Paginator.Backend) (hN : B.master.Nodup)
    (hmono : Paginator.Mono B) (t t2 : Nat) (htle : t ≤ t2)
    (L : List Nat) (hInv : Paginator.Inv B t L) (m : Nat) (hmL : m ∈ L)
    (_halive : B.alive t2 m = true)
    (hdead : ∀ z ∈ L, B.master.indexOf m < B.master.indexOf z →
      B.alive t2 z = false) :
    Paginator.Inv B (t2 + 1)
      (L ++ ((Paginator.itemsAfter B.master m).filter
        (fun x => B.alive t2 x)).take B.ps) := by
  obtain ⟨hmem, hpw, hbound⟩ := hInv
  have hmM : m ∈ B.master := hmem m hmL
  have hFsub : List.Sublist
      ((Paginator.itemsAfter B.master m).filter (fun x => B.alive t2 x))
      B.master :=
    (List.filter_sublist _).trans (List.drop_sublist _ _)
  have hPsub : List.Sublist (((Paginator.itemsAfter B.master m).filter
      (fun x => B.alive t2 x)).take B.ps) B.master :=
    (List.take_sublist _ _).trans hFsub
  have hPfact : ∀ y ∈ ((Paginator.itemsAfter B.master m).filter
      (fun x => B.alive t2 x)).take B.ps,
      y ∈ B.master ∧ B.master.indexOf m < B.master.indexOf y ∧
        B.alive t2 y = true := by
    intro y hy
    have hyF := List.mem_of_mem_take hy
    have h2 := List.mem_filter.mp hyF
    have h3 := (pag_mem_itemsAfter B.master hN m y).mp h2.1
    exact ⟨h3.1, h3.2, h2.2⟩
  have hPnotL : ∀ y ∈ ((Paginator.itemsAfter B.master m).filter
      (fun x => B.alive t2 x)).take B.ps, y ∉ L := by
    intro y hy hyL
    have h2 := hPfact y hy
    have h3 := hdead y hyL h2.2.1
    rw [h2.2.2] at h3
    exact Bool.noConfusion h3
  refine ⟨?_, ?_, ?_⟩
  · intro y hy
    rcases List.mem_append.mp hy with h | h
    · exact hmem y h
    · exact (hPfact y h).1
  · rw [List.pairwise_append]
    refine ⟨hpw, List.Pairwise.sublist hPsub (pag_master_pairwise B.master hN), ?_⟩
    intro a ha b hb
    have h2 := hPfact b hb
    have hbt : B.alive t b = true := pag_alive_le B hmono t t2 b htle h2.2.2
    exact hbound b h2.1 hbt (hPnotL b hb) a ha
  · intro x hxM hxAlive hxNot y hy
    have hx2 : B.alive t2 x = true := hmono t2 x hxAlive
    have hxt : B.alive t x = true := pag_alive_le B hmono t t2 x htle hx2
    have hxL : x ∉ L := fun hc => hxNot (List.mem_append.mpr (Or.inl hc))
    have hxP : x ∉ ((Paginator.itemsAfter B.master m).filter
        (fun x => B.alive t2 x)).take B.ps :=
      fun hc => hxNot (List.mem_append.mpr (Or.inr hc))
    have hLlt : ∀ z ∈ L, B.master.indexOf z < B.master.indexOf x :=
      hbound x hxM hxt hxL
    rcases List.mem_append.mp hy with h | h
    · exact hLlt y h
    · have hmx : B.master.indexOf m < B.master.indexOf x := hLlt m hmL
      have hxF : x ∈ (Paginator.itemsAfter B.master m).filter
          (fun x => B.alive t2 x) :=
        List.mem_filter.mpr
          ⟨(pag_mem_itemsAfter B.master hN m x).mpr ⟨hxM, hmx⟩, hx2⟩
      have hxTD : x ∈ ((Paginator.itemsAfter B.master m).filter
          (fun x => B.alive t2 x)).take B.ps ++
          ((Paginator.itemsAfter B.master m).filter
          (fun x => B.alive t2 x)).drop B.ps := by
        rw [List.take_append_drop]
        exact hxF
      have hxD : x ∈ ((Paginator.itemsAfter B.master m).filter
          (fun x => B.alive t2 x)).drop B.ps := by
        rcases List.mem_append.mp hxTD with h2 | h2
        · exact absurd h2 hxP
        · exact h2
      have hFpw : (((Paginator.itemsAfter B.master m).filter
          (fun x => B.alive t2 x)).take B.ps ++
          ((Paginator.itemsAfter B.master m).filter
          (fun x => B.alive t2 x)).drop B.ps).Pairwise
          (fun a b => B.master.indexOf a < B.master.indexOf b) := by
        rw [List.take_append_drop]
        exact List.Pairwise.sublist hFsub (pag_master_pairwise B.master hN)
      exact (List.pairwise_append.mp hFpw).2.2 y h x hxD

/-- The failures recorded by the rollback make every accumulated item after
the accepted marker (in master order) dead at the accept time. -/
theorem pag_dead_after (B : Paginator.Backend) (_hN : B.master.Nodup)
    (hmono : Paginator.Mono B) (L : List Nat)
    (_hmem : ∀ y ∈ L, y ∈ B.master)
    (hpw : L.Pairwise (fun a b => B.master.indexOf a < B.master.indexOf b))
    (t j : Nat) (hj : j < L.length) (m : Nat)
    (hm : L[L.length - 1 - j]? = some m)
    (hfails : ∀ k, k < j → ∃ item, L[L.length - 1 - k]? = some item ∧
      B.alive (t + k) item = false) :
    ∀ z ∈ L, B.master.indexOf m < B.master.indexOf z →
      B.alive (t + j) z = false := by
  intro z hz hlt
  rcases List.mem_iff_getElem.mp hz with ⟨p, hp, hzp⟩
  have hmlen : L.length - 1 - j < L.length := by omega
  have hmget : L[L.length - 1 - j] = m := by
    rcases List.getElem?_eq_some.mp hm with ⟨h2, h3⟩
    exact h3
  have hppos : L.length - 1 - j < p := by
    rcases Nat.lt_or_ge (L.length - 1 - j) p with hgood | hple
    · exact hgood
    · exfalso
      rcases Nat.lt_or_ge p (L.length - 1 - j) with hplt | hpge
      · have h4 := List.pairwise_iff_getElem.mp hpw p (L.length - 1 - j) hp hmlen hplt
        rw [hzp, hmget] at h4
        omega
      · have hpe : p = L.length - 1 - j := by omega
        have hzq : L[p]? = some z := by
          rw [List.getElem?_eq_some]
          exact ⟨hp, hzp⟩
        rw [hpe, hm] at hzq
        have hzm : z = m := (Option.some.inj hzq).symm
        rw [hzm] at hlt
        omega
  have hk : L.length - 1 - p < j := by omega
  rcases hfails (L.length - 1 - p) hk with ⟨item, hi, hdeadk⟩
  have hip : L.length - 1 - (L.length - 1 - p) = p := by omega
  rw [hip] at hi
  have hiz : item = z := by
    rcases List.getElem?_eq_some.mp hi with ⟨h2, h3⟩
    rw [← h3, hzp]
  rw [hiz] at hdeadk
  have hle2 : t + (L.length - 1 - p) ≤ t + j := by omega
  rcases hb : B.alive (t + j) z with _ | _
  · rfl
  · exfalso
    have h5 := pag_alive_le B hmono (t + (L.length - 1 - p)) (t + j) z hle2 hb
    rw [hdeadk] at h5
    exact Bool.noConfusion h5

/-- Main induction: from an invariant state, a completed paginator run against
an honest backend yields ids of the master ordering in strictly increasing
index order, containing every never-deleted item. -/
theorem pag_paginatorAux_done (B : Paginator.Backend) (hN : B.master.Nodup)
    (hmono : Paginator.Mono B) (hps : 0 < B.ps) :
    ∀ fuel t L R, Paginator.Inv B t L →
      Paginator.paginatorAux (Paginator.livePage B) (fun x => x) fuel t L
        = Paginator.PagResult.done R →
      (∀ y ∈ R, y ∈ B.master) ∧
      R.Pairwise (fun a b => B.master.indexOf a < B.master.indexOf b) ∧
      (∀ x ∈ B.master, (∀ s, B.alive s x = true) → x ∈ R) := by
  intro fuel
  induction fuel with
  | zero => intro t L R hInv h; simp [Paginator.paginatorAux] at h
  | succ n ih =>
    intro t L R hInv h
    obtain ⟨hmemL, hpwL, hboundL⟩ := hInv
    simp only [Paginator.paginatorAux] at h
    by_cases hLe : L.isEmpty
    · rw [if_pos hLe] at h
      have hLnil : L = [] := List.isEmpty_iff.mp hLe
      split at h
      · rename_i heq
        simp [Paginator.livePage] at heq
      · rename_i tempList heq
        have htl : tempList
            = (B.master.filter (fun x => B.alive t x)).take B.ps := by
          have h2 := heq
          simp [Paginator.livePage] at h2
          exact h2.symm
        split at h
        · rename_i hemp
          have hR : R = L := (Paginator.PagResult.done.inj h).symm
          subst hR
          refine ⟨hmemL, hpwL, ?_⟩
          intro x hxM hperm
          exfalso
          rw [htl] at hemp
          have hFnil : B.master.filter (fun x => B.alive t x) = [] := by
            rcases List.take_eq_nil_iff.mp (List.isEmpty_iff.mp hemp) with h2 | h2
            · omega
            · exact h2
          exact (List.filter_eq_nil_iff.mp hFnil) x hxM (hperm t)
        · rw [hLnil, List.nil_append, htl] at h
          exact ih (t + 1) _ R (pag_inv_first B hN hmono t) h
    · rw [if_neg hLe] at h
      split at h
      · exact absurd h (by simp)
      · rename_i P t2 heq
        rcases pag_tryMarkers_ok (Paginator.livePage B) L _ t P t2 heq with
          ⟨k, hk, hfails, ⟨mItem, hmItem, hfsucc⟩, ht2⟩
        rw [List.getElem_range] at hmItem
        have hklt : k < min 10 L.length := by simpa using hk
        have hkL : k < L.length := lt_of_lt_of_le hklt (min_le_right _ _)
        have hps2 := pag_livePage_some_ok B (t + k) mItem P hfsucc
        have hmL : mItem ∈ L := List.getElem?_mem hmItem
        have hfails2 : ∀ k2, k2 < k →
            ∃ item, L[L.length - 1 - k2]? = some item ∧
              B.alive (t + k2) item = false := by
          intro k2 hk2
          have hk2r : k2 < (List.range (min 10 L.length)).length := by
            simpa using lt_trans hk2 hklt
          rcases hfails k2 hk2r hk2 with ⟨item, hi, hf⟩
          rw [List.getElem_range] at hi
          exact ⟨item, hi, pag_livePage_some_bad B (t + k2) item hf⟩
        have hdead := pag_dead_after B hN hmono L hmemL hpwL t k hkL mItem
          hmItem hfails2
        split at h
        · rename_i hemp
          have hR : R = L := (Paginator.PagResult.done.inj h).symm
          subst hR
          refine ⟨hmemL, hpwL, ?_⟩
          intro x hxM hperm
          by_contra hxL
          have hlt := hboundL x hxM (hperm t) hxL mItem hmL
          have hxIA : x ∈ Paginator.itemsAfter B.master mItem :=
            (pag_mem_itemsAfter B.master hN mItem x).mpr ⟨hxM, hlt⟩
          have hxF : x ∈ (Paginator.itemsAfter B.master mItem).filter
              (fun y => B.alive (t + k) y) :=
            List.mem_filter.mpr ⟨hxIA, hperm (t + k)⟩
          rw [hps2.2] at hemp
          rcases List.take_eq_nil_iff.mp (List.isEmpty_iff.mp hemp) with h2 | h2
          · omega
          · rw [h2] at hxF
            exact absurd hxF (List.not_mem_nil x)
        · have hInv2 : Paginator.Inv B (t + k + 1)
              (L ++ ((Paginator.itemsAfter B.master mItem).filter
                (fun x => B.alive (t + k) x)).take B.ps) :=
            pag_inv_extend B hN hmono t (t + k) (Nat.le_add_right t k) L
              ⟨hmemL, hpwL, hboundL⟩ mItem hmL hps2.1 hdead
          rw [ht2, hps2.2] at h
          exact ih (t + k + 1) _ R hInv2 h

end Openstack

/- ------------------------------------------------------------------ -/
/- Theorems.                                                           -/
/- ------------------------------------------------------------------ -/

namespace Openstack

/-- A successful `wait_for(self.is_running)` poll really observed RUNNING. -/
theorem startsm_waitForRunning_some (env : StartSM.StartEnv) :
    ∀ fuel k j, StartSM.waitForRunning env k fuel = some j →
      env.obs j = VmState.running := by
  intro fuel
  induction fuel with
  | zero => intro k j h; simp [StartSM.waitForRunning] at h
  | succ n ih =>
    intro k j h
    by_cases hk : env.obs k = VmState.running
    · simp [StartSM.waitForRunning, hk] at h
      exact h ▸ hk
    · simp [StartSM.waitForRunning, hk] at h
      exact ih _ _ h

/-- A successful `delete_floating_ip` poll found a scan with no matching
address. -/
theorem fiprelease_delWait_some (env : FipRelease.DelEnv) (addr : Nat) :
    ∀ fuel k j, FipRelease.delWait env addr k fuel = some j →
      k ≤ j ∧ env.findall j addr = [] := by
  intro fuel
  induction fuel with
  | zero => intro k j h; simp [FipRelease.delWait] at h
  | succ n ih =>
    intro k j h
    by_cases hk : env.findall k addr = []
    · simp [FipRelease.delWait, hk] at h
      exact ⟨Nat.le_of_eq h, h ▸ hk⟩
    · simp [FipRelease.delWait, hk] at h
      have h2 := ih _ _ h
      exact ⟨Nat.le_trans (Nat.le_succ k) h2.1, h2.2⟩

/-- The head of the sorted free-IP list has the smallest address of the raw
backend scan. -/
theorem fipalloc_free_fips_head_min (env : FipAlloc.AsgEnv) (s : Nat)
    (f0 : FipAlloc.FIP) (rest : List FipAlloc.FIP)
    (h : FipAlloc.free_fips env s = f0 :: rest) :
    ∀ g ∈ env.findallFree s, f0.ip ≤ g.ip := by
  intro g hg
  have hperm := List.perm_insertionSort FipAlloc.fipLe (env.findallFree s)
  have hsort := List.sorted_insertionSort FipAlloc.fipLe (env.findallFree s)
  rw [show List.insertionSort FipAlloc.fipLe (env.findallFree s)
        = FipAlloc.free_fips env s from rfl, h] at hperm hsort
  have hg2 : g ∈ f0 :: rest := hperm.symm.subset hg
  rcases List.mem_cons.mp hg2 with rfl | htl
  · exact Nat.le_refl _
  · exact (List.sorted_cons.mp hsort).1 g htl

/-- One-step unfolding of the acquisition loop at positive fuel. -/
theorem fipalloc_asgLoop_succ (env : FipAlloc.AsgEnv) (fuel o s c : Nat)
    (att : Option FipAlloc.FIP) :
    FipAlloc.asgLoop env (fuel + 1) o s c att =
      match env.obsIp o with
      | some _ =>
        match att with
        | none => Except.error FipAlloc.AsgErr.unboundLocal
        | some ip =>
          if env.obsIp (o + 1) = some ip.ip then Except.ok (some ip.ip, o + 2)
          else Except.error FipAlloc.AsgErr.assertFailed
      | none =>
        match FipAlloc.acquireRound env s c with
        | Except.error _ => Except.error FipAlloc.AsgErr.noMoreFips
        | Except.ok (ip, s2, c2) => FipAlloc.asgLoop env fuel (o + 1) s2 c2 (some ip) :=
  rfl

/-- A normal return of the acquisition loop hands back exactly the address the
final assert re-observed. -/
theorem fipalloc_asgLoop_ok (env : FipAlloc.AsgEnv) :
    ∀ fuel o s c att r, FipAlloc.asgLoop env fuel o s c att = Except.ok r →
      r.1 = env.obsIp (r.2 - 1) := by
  intro fuel
  induction fuel with
  | zero => intro o s c att r h; simp [FipAlloc.asgLoop] at h
  | succ n ih =>
    intro o s c att r h
    rw [fipalloc_asgLoop_succ] at h
    split at h
    · split at h
      · exact absurd h (by simp)
      · rename_i ip
        split at h
        · rename_i hcond
          have hr : r = (some ip.ip, o + 2) := (Except.ok.inj h).symm
          rw [hr]
          simpa using hcond.symm
        · exact absurd h (by simp)
    · split at h
      · exact absurd h (by simp)
      · exact ih _ _ _ _ _ h

/-- C2: for every call of `assign_floating_ip` that returns normally, the
instance's floating IP as re-fetched by the final observation equals the
address the call returns; and when the acquisition loop exits (the loop-head
read sees an address) with attached FIP `ip` but the assert-time re-read
differs from `ip`'s address, the call raises the failed assertion instead of
returning. -/
theorem c2_assign_floating_ip (env : FipAlloc.AsgEnv) (fuel : Nat) :
    (∀ r, FipAlloc.assign_floating_ip env fuel = Except.ok r →
      r.1 = env.obsIp (r.2 - 1)) ∧
    (∀ o s c ip, env.obsIp o ≠ none → env.obsIp (o + 1) ≠ some (FipAlloc.FIP.ip ip) →
      FipAlloc.asgLoop env (fuel + 1) o s c (some ip)
        = Except.error FipAlloc.AsgErr.assertFailed) := by
  constructor
  · intro r h
    rw [FipAlloc.assign_floating_ip] at h
    split at h
    · have hr : r = (env.obsIp 1, 2) := (Except.ok.inj h).symm
      rw [hr]
      rfl
    · exact fipalloc_asgLoop_ok env fuel 1 0 0 none r h
  · intro o s c ip hobs hne
    rcases hx : env.obsIp o with _ | v
    · exact absurd hx hobs
    · rw [fipalloc_asgLoop_succ, hx]
      show (if env.obsIp (o + 1) = some ip.ip then
              Except.ok (some ip.ip, o + 2)
            else Except.error FipAlloc.AsgErr.assertFailed)
          = Except.error FipAlloc.AsgErr.assertFailed
      rw [if_neg hne]

/-- Witness for C2: under `asgEnvW` the call returns address 7, which is what
the final observation (index 3) reports; under `asgEnvBad` the loop exits with
an assert-time mismatch and fails the assertion. -/
theorem c2_assign_floating_ip_witness :
    (some 7 : Option Nat) = FipAlloc.asgEnvW.obsIp 3 ∧
    FipAlloc.asgLoop FipAlloc.asgEnvBad 1 0 0 0 (some ⟨9⟩)
      = Except.error FipAlloc.AsgErr.assertFailed :=
  ⟨(c2_assign_floating_ip FipAlloc.asgEnvW 2).1 (some 7, 4) rfl,
   (c2_assign_floating_ip FipAlloc.asgEnvBad 0).2 0 0 0 ⟨9⟩ (by decide) (by decide)⟩

/-- With at most one free address the round reduces to the create branch. -/
theorem fipalloc_acquireRound_low (env : FipAlloc.AsgEnv) (s c : Nat)
    (hlow : FipAlloc.free_fips env s = [] ∨ ∃ x, FipAlloc.free_fips env s = [x]) :
    FipAlloc.acquireRound env s c =
      match env.createFip c with
      | Except.ok ip => Except.ok (ip, s + 1, c + 1)
      | Except.error _ =>
        match FipAlloc.free_fips env (s + 1) with
        | ip :: _ => Except.ok (ip, s + 2, c + 1)
        | [] => Except.error () := by
  rcases hlow with h | ⟨x, h⟩ <;> rw [FipAlloc.acquireRound, h]

/-- A list of length at most one is empty or a singleton. -/
theorem fipalloc_len_le_one (l : List FipAlloc.FIP) (h : l.length ≤ 1) :
    l = [] ∨ ∃ x, l = [x] := by
  rcases l with _ | ⟨x, _ | ⟨y, tl⟩⟩
  · exact Or.inl rfl
  · exact Or.inr ⟨x, rfl⟩
  · simp at h

/-- C3: in an acquisition round whose free-pool scan finds two or more free
addresses, the allocator picks the head of the sorted free list — the
smallest address of the scan — and leaves the create counter untouched; with
one or zero free addresses the round issues a backend create call (the create
counter advances in every outcome). -/
theorem c3_allocator_picks_eldest (env : FipAlloc.AsgEnv) (s c : Nat) :
    (∀ f0 f1 tl, FipAlloc.free_fips env s = f0 :: f1 :: tl →
      FipAlloc.acquireRound env s c = Except.ok (f0, s + 1, c) ∧
      ∀ g ∈ env.findallFree s, f0.ip ≤ g.ip) ∧
    ((FipAlloc.free_fips env s).length ≤ 1 →
      FipAlloc.acquireRound env s c = Except.error () ∨
      ∃ ip s2, FipAlloc.acquireRound env s c = Except.ok (ip, s2, c + 1)) := by
  constructor
  · intro f0 f1 tl h
    constructor
    · rw [FipAlloc.acquireRound, h]
    · exact fipalloc_free_fips_head_min env s f0 (f1 :: tl) h
  · intro hlen
    rw [fipalloc_acquireRound_low env s c
      (fipalloc_len_le_one (FipAlloc.free_fips env s) hlen)]
    rcases hc : env.createFip c with e | ip
    · rcases hf2 : FipAlloc.free_fips env (s + 1) with _ | ⟨z, tl2⟩
      · exact Or.inl (by simp [hc, hf2])
      · exact Or.inr ⟨z, s + 2, by simp [hc, hf2]⟩
    · exact Or.inr ⟨ip, s + 1, by simp [hc]⟩

/-- Witness for C3: with free addresses 9 and 7 in the pool the round returns
address 7 without advancing the create counter, and 7 is at most 9; with an
empty pool the round is a create round. -/
theorem c3_allocator_picks_eldest_witness :
    FipAlloc.acquireRound FipAlloc.asgEnvW 0 0 = Except.ok (⟨7⟩, 1, 0) ∧
    (7 : Nat) ≤ 9 ∧
    (FipAlloc.acquireRound FipAlloc.asgEnvEmpty 0 0 = Except.error () ∨
      ∃ ip s2, FipAlloc.acquireRound FipAlloc.asgEnvEmpty 0 0
        = Except.ok (ip, s2, 0 + 1)) :=
  ⟨((c3_allocator_picks_eldest FipAlloc.asgEnvW 0 0).1 ⟨7⟩ ⟨9⟩ [] rfl).1,
   ((c3_allocator_picks_eldest FipAlloc.asgEnvW 0 0).1 ⟨7⟩ ⟨9⟩ [] rfl).2 ⟨9⟩ (by decide),
   (c3_allocator_picks_eldest FipAlloc.asgEnvEmpty 0 0).2 (by decide)⟩

/-- C4: in a round whose create call fails with the allocation-limit error,
the allocator re-scans the free pool: a non-empty re-scan yields its first
address without raising, an empty re-scan raises the pool-exhausted error. -/
theorem c4_overlimit_fallback (env : FipAlloc.AsgEnv) (s c : Nat)
    (hlen : (FipAlloc.free_fips env s).length ≤ 1)
    (hcreate : env.createFip c = Except.error ()) :
    (∀ ip rest, FipAlloc.free_fips env (s + 1) = ip :: rest →
      FipAlloc.acquireRound env s c = Except.ok (ip, s + 2, c + 1)) ∧
    (FipAlloc.free_fips env (s + 1) = [] →
      FipAlloc.acquireRound env s c = Except.error ()) := by
  rw [fipalloc_acquireRound_low env s c
    (fipalloc_len_le_one (FipAlloc.free_fips env s) hlen)]
  constructor
  · intro ip rest h2
    simp [hcreate, h2]
  · intro h2
    simp [hcreate, h2]

/-- Witness for C4: under `asgEnvOver` the first scan is empty, creation
fails, and the fallback re-scan provides address 4, which the round returns;
under `asgEnvEmpty` the fallback re-scan is empty and the round raises. -/
theorem c4_overlimit_fallback_witness :
    FipAlloc.acquireRound FipAlloc.asgEnvOver 0 0 = Except.ok (⟨4⟩, 0 + 2, 0 + 1) ∧
    FipAlloc.acquireRound FipAlloc.asgEnvEmpty 0 0 = Except.error () :=
  ⟨(c4_overlimit_fallback FipAlloc.asgEnvOver 0 0 (by decide) rfl).1 ⟨4⟩ [] rfl,
   (c4_overlimit_fallback FipAlloc.asgEnvEmpty 0 0 (by decide) rfl).2 rfl⟩

/-- C5: `start` on an instance observed RUNNING returns success with no
backend command; observed SUSPENDED it issues resume (not start); observed
PAUSED it issues unpause; otherwise it issues start; and a successful return
means some observation saw RUNNING (the call blocks until the instance runs). -/
theorem c5_start_dispatch (env : StartSM.StartEnv) (fuel : Nat) :
    (env.obs 0 = VmState.running →
      StartSM.start env fuel = (StartSM.StartRes.ok, [])) ∧
    (env.obs 0 ≠ VmState.running → env.obs 1 = VmState.suspended →
      (StartSM.start env fuel).2 = [StartSM.Cmd.resume]) ∧
    (env.obs 0 ≠ VmState.running → env.obs 1 ≠ VmState.suspended →
      env.obs 2 = VmState.paused →
      (StartSM.start env fuel).2 = [StartSM.Cmd.unpause]) ∧
    (env.obs 0 ≠ VmState.running → env.obs 1 ≠ VmState.suspended →
      env.obs 2 ≠ VmState.paused →
      (StartSM.start env fuel).2 = [StartSM.Cmd.startCmd]) ∧
    ((StartSM.start env fuel).1 = StartSM.StartRes.ok →
      ∃ j, env.obs j = VmState.running) := by
  refine ⟨?_, ?_, ?_, ?_, ?_⟩
  · intro h0; rw [StartSM.start, if_pos h0]
  · intro h0 h1
    rw [StartSM.start, if_neg h0, if_pos h1]
    rcases StartSM.waitForRunning env 2 fuel with _ | j <;> rfl
  · intro h0 h1 h2
    rw [StartSM.start, if_neg h0, if_neg h1, if_pos h2]
    rcases StartSM.waitForRunning env 3 fuel with _ | j <;> rfl
  · intro h0 h1 h2
    rw [StartSM.start, if_neg h0, if_neg h1, if_neg h2]
    rcases StartSM.waitForRunning env 3 fuel with _ | j <;> rfl
  · intro hok
    by_cases h0 : env.obs 0 = VmState.running
    · exact ⟨0, h0⟩
    · rw [StartSM.start, if_neg h0] at hok
      by_cases h1 : env.obs 1 = VmState.suspended
      · rw [if_pos h1] at hok
        rcases hw : StartSM.waitForRunning env 2 fuel with _ | j
        · rw [hw] at hok; exact absurd hok (by simp)
        · exact ⟨j, startsm_waitForRunning_some env fuel 2 j hw⟩
      · rw [if_neg h1] at hok
        by_cases h2 : env.obs 2 = VmState.paused
        · rw [if_pos h2] at hok
          rcases hw : StartSM.waitForRunning env 3 fuel with _ | j
          · rw [hw] at hok; exact absurd hok (by simp)
          · exact ⟨j, startsm_waitForRunning_some env fuel 3 j hw⟩
        · rw [if_neg h2] at hok
          rcases hw : StartSM.waitForRunning env 3 fuel with _ | j
          · rw [hw] at hok; exact absurd hok (by simp)
          · exact ⟨j, startsm_waitForRunning_some env fuel 3 j hw⟩

/-- Witness for C5: a running instance yields success with no command; a
suspended one resumes; a paused one unpauses; a stopped one starts; and the
suspended run observed RUNNING at some point. -/
theorem c5_start_dispatch_witness :
    StartSM.start StartSM.envRunning 1 = (StartSM.StartRes.ok, []) ∧
    (StartSM.start StartSM.envSusp 3).2 = [StartSM.Cmd.resume] ∧
    (StartSM.start StartSM.envPaused 3).2 = [StartSM.Cmd.unpause] ∧
    (StartSM.start StartSM.envStopped 3).2 = [StartSM.Cmd.startCmd] ∧
    (∃ j, StartSM.envSusp.obs j = VmState.running) :=
  ⟨(c5_start_dispatch StartSM.envRunning 1).1 rfl,
   (c5_start_dispatch StartSM.envSusp 3).2.1 (by decide) (by decide),
   (c5_start_dispatch StartSM.envPaused 3).2.2.1 (by decide) (by decide) (by decide),
   (c5_start_dispatch StartSM.envStopped 3).2.2.2.1 (by decide) (by decide) (by decide),
   (c5_start_dispatch StartSM.envSusp 3).2.2.2.2 rfl⟩

/-- C6: when snapshot creation fails (after a successful steady-state wait and
stop), `mark_as_template` re-raises the snapshot failure; with a successful
rename-back the instance's final name is its pre-call name, and a rename-back
failure is swallowed — the snapshot failure is still what the caller sees,
with the copy name left in place. -/
theorem c6_mark_as_template_rollback (name0 : String) (env : MarkTpl.MtEnv)
    (hsteady : env.steady = Except.ok ())
    (hstop : env.isStopped = true ∨ env.stopRes = Except.ok ())
    (hsnap : env.createImage = Except.error ()) :
    (MarkTpl.mark_as_template name0 env).1 = Except.error MarkTpl.MtErr.snapshotFail ∧
    (env.renameBackOk = true → (MarkTpl.mark_as_template name0 env).2 = name0) ∧
    (env.renameBackOk = false →
      (MarkTpl.mark_as_template name0 env).2 = name0 ++ "_copytemplate") := by
  have hbody : MarkTpl.mtBody env = Except.error MarkTpl.MtErr.snapshotFail := by
    rw [MarkTpl.mtBody, hsteady, hsnap]
    rcases hstop with h | h
    · rw [h]; rfl
    · rcases hst : env.isStopped with _ | _
      · rw [h]; rfl
      · rfl
  refine ⟨?_, ?_, ?_⟩
  · rw [MarkTpl.mark_as_template, hbody]
  · intro hrb; rw [MarkTpl.mark_as_template, hbody]; simp [hrb]
  · intro hrb; rw [MarkTpl.mark_as_template, hbody]; simp [hrb]

/-- Witness for C6: under `envSnapFail` the call fails with the snapshot
error and the final name is the original one; under `envSnapFailNoRB` the
failed rename-back leaves the copy name but the same error is re-raised. -/
theorem c6_mark_as_template_rollback_witness :
    (MarkTpl.mark_as_template ("vm1") MarkTpl.envSnapFail).1
      = Except.error MarkTpl.MtErr.snapshotFail ∧
    (MarkTpl.mark_as_template ("vm1") MarkTpl.envSnapFail).2 = ("vm1") ∧
    (MarkTpl.mark_as_template ("vm1") MarkTpl.envSnapFailNoRB).2
      = ("vm1" ++ "_copytemplate") :=
  ⟨(c6_mark_as_template_rollback ("vm1") MarkTpl.envSnapFail rfl (Or.inl rfl) rfl).1,
   (c6_mark_as_template_rollback ("vm1") MarkTpl.envSnapFail rfl (Or.inl rfl) rfl).2.1 rfl,
   (c6_mark_as_template_rollback ("vm1") MarkTpl.envSnapFailNoRB rfl (Or.inl rfl) rfl).2.2 rfl⟩

/-- C7: `get_vm` with no match raises the not-found error and with several
matches the ambiguous-lookup error, but on the single-match path it falls off
the end of the Python function and returns `None` instead of the matching
instance — contradicting its own docstring ("Returns: single
OpenstackInstance object"). -/
theorem c7_get_vm_returns_none :
    Lookup.get_vm [Lookup.vmOne] (some ("vm1")) none none = Except.ok none ∧
    Lookup.get_vm [] (some ("vm1")) none none
      = Except.error Lookup.LookupErr.notFound ∧
    Lookup.get_vm [Lookup.vmOne, Lookup.vmOneB] (some ("vm1")) none none
      = Except.error Lookup.LookupErr.multipleInstances :=
  ⟨rfl, rfl, rfl⟩

/-- C8 counterexample: releasing address 5 — attached to an instance at
lookup time — issues only the backend delete command; no detach
(`remove_floating_ip`) command is ever issued by `delete_floating_ip`,
refuting the claim's "detaches the IP from its current instance" step. -/
theorem c8_delete_floating_ip_counterexample :
    (FipRelease.delete_floating_ip FipRelease.delEnvAttached (some 5) 3).1
      = Except.ok true ∧
    (FipRelease.delEnvAttached.findall 0 5).map FipRelease.Fip8.fixed_ip
      = [some ("vm1")] ∧
    (FipRelease.delete_floating_ip FipRelease.delEnvAttached (some 5) 3).2
      = [FipRelease.FipCmd.deleteFip 5] ∧
    FipRelease.FipCmd.removeFloatingIp 5 ∉
      (FipRelease.delete_floating_ip FipRelease.delEnvAttached (some 5) 3).2 :=
  ⟨rfl, rfl, rfl, by decide⟩

/-- C8 (amended): `delete_floating_ip` on a raw address looks the floating-IP
object up by address; an empty lookup returns False without raising
(idempotent release); otherwise it deletes the object directly — issuing no
detach command — and a normal True return means some poll from index 1 on
found the backend no longer listing the address. -/
theorem c8_delete_floating_ip_amended (env : FipRelease.DelEnv) (a fuel : Nat) :
    (env.findall 0 a = [] →
      FipRelease.delete_floating_ip env (some a) fuel = (Except.ok false, [])) ∧
    (∀ fip rest, env.findall 0 a = fip :: rest →
      (FipRelease.delete_floating_ip env (some a) fuel).2
        = [FipRelease.FipCmd.deleteFip fip.ip] ∧
      (∀ x, FipRelease.FipCmd.removeFloatingIp x ∉
        (FipRelease.delete_floating_ip env (some a) fuel).2) ∧
      ((FipRelease.delete_floating_ip env (some a) fuel).1 = Except.ok true →
        ∃ k, 1 ≤ k ∧ env.findall k fip.ip = [])) := by
  constructor
  · intro h
    rw [FipRelease.delete_floating_ip, h]
  · intro fip rest h
    have hcmds : ∀ res : Except Unit Bool × List FipRelease.FipCmd,
        res.2 = [FipRelease.FipCmd.deleteFip fip.ip] →
        ∀ x, FipRelease.FipCmd.removeFloatingIp x ∉ res.2 := by
      intro res hres x hmem
      rw [hres] at hmem
      rcases List.mem_singleton.mp hmem with h2
      exact FipRelease.FipCmd.noConfusion h2
    rcases hw : FipRelease.delWait env fip.ip 1 fuel with _ | j
    · have hres : FipRelease.delete_floating_ip env (some a) fuel
          = (Except.error (), [FipRelease.FipCmd.deleteFip fip.ip]) := by
        rw [FipRelease.delete_floating_ip, h]
        simp [hw]
      refine ⟨by rw [hres], hcmds _ (by rw [hres]), ?_⟩
      intro habs
      rw [hres] at habs
      exact absurd habs (by simp)
    · have hres : FipRelease.delete_floating_ip env (some a) fuel
          = (Except.ok true, [FipRelease.FipCmd.deleteFip fip.ip]) := by
        rw [FipRelease.delete_floating_ip, h]
        simp [hw]
      have hj := fiprelease_delWait_some env fip.ip fuel 1 j hw
      exact ⟨by rw [hres], hcmds _ (by rw [hres]), fun _ => ⟨j, hj.1, hj.2⟩⟩

/-- Witness for C8 (amended): a missing address releases idempotently; an
existing address 5 produces exactly the delete command and a successful poll. -/
theorem c8_delete_floating_ip_amended_witness :
    FipRelease.delete_floating_ip FipRelease.delEnvNone (some 5) 3
      = (Except.ok false, []) ∧
    (FipRelease.delete_floating_ip FipRelease.delEnvAttached (some 5) 3).2
      = [FipRelease.FipCmd.deleteFip 5] ∧
    (∃ k, 1 ≤ k ∧ FipRelease.delEnvAttached.findall k 5 = []) :=
  ⟨(c8_delete_floating_ip_amended FipRelease.delEnvNone 5 3).1 rfl,
   ((c8_delete_floating_ip_amended FipRelease.delEnvAttached 5 3).2
      { ip := 5, fixed_ip := some ("vm1") } [] rfl).1,
   ((c8_delete_floating_ip_amended FipRelease.delEnvAttached 5 3).2
      { ip := 5, fixed_ip := some ("vm1") } [] rfl).2.2 rfl⟩

/-- C9 counterexample: the unmapped status SHELVED with fault details present
raises the generic instance-in-error-state error, not the descriptive error
carrying the fault code, message and timestamp — only the ERROR status
inspects fault details. -/
theorem c9_state_counterexample :
    StateProp.Unmapped ("SHELVED") ∧
    StateProp.state ("vm") ("SHELVED")
        (some { code := 1, message := ("boom"), created := ("now") })
      = Except.error (StateProp.VMErr.generic ("vm")) ∧
    StateProp.state ("vm") ("SHELVED")
        (some { code := 1, message := ("boom"), created := ("now") })
      ≠ Except.error (StateProp.VMErr.descriptive ("vm") 1 ("boom") ("now")) := by
  refine ⟨rfl, rfl, fun h => ?_⟩
  exact StateProp.VMErr.noConfusion (Except.error.inj h)

/-- C9 (amended): reading the state of an instance whose status is ERROR
raises the descriptive error with the record's fault code, message and
timestamp when fault details are present and the generic error when they are
absent; any other unmapped status raises the generic error regardless of
fault details. -/
theorem c9_state_amended (name status : String) (f : StateProp.Fault) :
    (StateProp.state name ("ERROR") (some f)
      = Except.error (StateProp.VMErr.descriptive name f.code f.message f.created)) ∧
    (StateProp.state name ("ERROR") none
      = Except.error (StateProp.VMErr.generic name)) ∧
    (StateProp.Unmapped status → status ≠ ("ERROR") →
      ∀ fault, StateProp.state name status fault
        = Except.error (StateProp.VMErr.generic name)) := by
  refine ⟨rfl, rfl, ?_⟩
  intro hu hne fault
  have hu2 : StateProp.state_map.lookup status = none := hu
  rw [StateProp.state.eq_def, if_pos hne, StateProp.api_state_to_vmstate, hu2]

/-- Witness for C9 (amended): instantiated at status SHELVED with concrete
fault details. -/
theorem c9_state_amended_witness :
    StateProp.state ("vm") ("ERROR")
        (some { code := 1, message := ("boom"), created := ("now") })
      = Except.error (StateProp.VMErr.descriptive ("vm") 1 ("boom") ("now")) ∧
    StateProp.state ("vm") ("SHELVED")
        (some { code := 1, message := ("boom"), created := ("now") })
      = Except.error (StateProp.VMErr.generic ("vm")) :=
  ⟨(c9_state_amended ("vm") ("SHELVED")
      { code := 1, message := ("boom"), created := ("now") }).1,
   (c9_state_amended ("vm") ("SHELVED")
      { code := 1, message := ("boom"), created := ("now") }).2.2 rfl (by decide)
      (some { code := 1, message := ("boom"), created := ("now") })⟩

/-- C10: `find_vms` — and therefore `get_vm` — raises the ValueError guard
whenever both the name and ip arguments are absent, even when an id argument
is supplied: lookup by id alone always fails. -/
theorem c10_find_vms_requires_name_or_ip
    (instances : List Lookup.Inst) (idArg : Option String) :
    Lookup.find_vms instances none idArg none
      = Except.error Lookup.LookupErr.valueError ∧
    Lookup.get_vm instances none idArg none
      = Except.error Lookup.LookupErr.valueError :=
  ⟨rfl, rfl⟩

/-- C1: against an honest concurrently-mutated backend (master ordering with
duplicate-free ids, permanent deletions, positive page size), every completed
run of `_generic_paginator` — i.e. every run in which each resumption point
found an accepted marker inside the 10-step backward window — returns ids of
the backend collection with no duplicates, containing every item that was
never deleted; and on the listing function whose first page has eleven items
and which then rejects all ten backward markers (although the eleventh
accumulated item's marker would have succeeded), the paginator raises the
unrecoverable-listing error. -/
theorem c1_generic_paginator :
    (∀ (B : Paginator.Backend) (fuel : Nat) (R : List Nat),
      B.master.Nodup → Paginator.Mono B → 0 < B.ps →
      Paginator.generic_paginator (Paginator.livePage B) (fun x => x) fuel
        = Paginator.PagResult.done R →
      ((∀ y ∈ R, y ∈ B.master) ∧ R.Nodup ∧
        ∀ x ∈ B.master, (∀ s, B.alive s x = true) → x ∈ R)) ∧
    Paginator.generic_paginator Paginator.windowList (fun x => x) 3
      = Paginator.PagResult.unrecoverable := by
  constructor
  · intro B fuel R hN hmono hps h
    have hInv0 : Paginator.Inv B 0 [] := by
      refine ⟨?_, List.Pairwise.nil, ?_⟩
      · intro y hy
        exact absurd hy (List.not_mem_nil y)
      · intro x hxM hxA hxL y hy
        exact absurd hy (List.not_mem_nil y)
    have hmain := pag_paginatorAux_done B hN hmono hps fuel 0 [] R hInv0 h
    refine ⟨hmain.1, ?_, hmain.2.2⟩
    exact hmain.2.1.imp fun {a b} hab hEq => by rw [hEq] at hab; omega
  · rfl

/-- Witness for C1: instantiated at a three-item backend with no deletions and
page size five, where the run completes with exactly the three items. -/
theorem c1_generic_paginator_witness :
    (∀ y ∈ ([0, 1, 2] : List Nat), y ∈ Paginator.sampleBackend.master) ∧
    ([0, 1, 2] : List Nat).Nodup ∧
    (2 : Nat) ∈ ([0, 1, 2] : List Nat) := by
  have h := c1_generic_paginator.1 Paginator.sampleBackend 3 [0, 1, 2]
    (by decide) (fun t x hx => hx) (by decide) rfl
  exact ⟨h.1, h.2.1, h.2.2 2 (by decide) (fun s => rfl)⟩

end Openstack
